import Mathlib

/-!
Verification of the img2txt response-normalization pipeline.

The Python sources are shallowly embedded here:
* `src/formatter.py` — sanitizer, parser wrapper, field projector, content
  formatter (namespace `Formatter` holds the parts specific to that module;
  the helper functions `clean_json_string`, `parse_json_safely`,
  `format_title`, `format_description`, `format_alt_text` are shared verbatim
  by `src/version-1/app.py` and `src/streamlit.py`, whose variant parts live
  in namespace `AppV1`).
* `src/pinterest_api.py` — the pydantic `PinData` validators and `create_pin`.
* `src/main.py` — the confidence gate condition.

Python values flowing through the pipeline are modelled by `PyVal`
(JSON-decodable values: None, bool, int, str, list, dict).  Python
exceptions raised inside the formatter are modelled with `Except String`.
Python `str.strip` / `str.replace` are modelled on `List Char`.
`json.loads` is modelled by a fuel-based recursive-descent parser
(`json_loads`); it covers objects, arrays, strings with the common escapes,
integers, and the three literals — enough for every concrete input used
below — and fails (like the real decoder signals an error) on anything else.
-/

/-- Model of a Python value as produced by `json.loads` (plus `None`). -/
inductive PyVal where
  | none
  | bool (b : Bool)
  | int (n : Int)
  | str (s : String)
  | list (xs : List PyVal)
  | dict (xs : List (String × PyVal))

/-- Python truthiness (`if not x`) for the values that can reach the pipeline. -/
def truthy : PyVal → Bool
  | PyVal.none => false
  | PyVal.bool b => b
  | PyVal.int n => n != 0
  | PyVal.str s => s != ("")
  | PyVal.list xs => !xs.isEmpty
  | PyVal.dict xs => !xs.isEmpty

/-- Python `dict.get(k)` on an association list with unique keys. -/
def dGet : List (String × PyVal) → String → Option PyVal
  | [], _ => Option.none
  | p :: rest, k => if p.1 = k then Option.some p.2 else dGet rest k

/-- Python `d[k] = v`: replace the value at the first occurrence of the key,
keeping its position, or append the binding at the end. -/
def dInsert (k : String) (v : PyVal) : List (String × PyVal) → List (String × PyVal)
  | [] => [(k, v)]
  | p :: rest => if p.1 = k then (p.1, v) :: rest else p :: dInsert k v rest

/-- Discriminator for `isinstance(x, dict)`. -/
def isDictV : PyVal → Bool
  | PyVal.dict _ => true
  | _ => false

/-- The whitespace characters stripped by Python `str.strip()`
(restricted to the ASCII whitespace that can occur here). -/
def wsp (c : Char) : Bool := c = ' ' || c = '\t' || c = '\n' || c = '\r'

/-- Python `str.strip()` on a character list: drop leading and trailing
whitespace. -/
def stripChars (l : List Char) : List Char :=
  ((l.dropWhile wsp).reverse.dropWhile wsp).reverse

/-- Python `str.strip()` on strings. -/
def stripS (s : String) : String := (stripChars s.toList).asString

/-- One pass of Python `str.replace(',\n' + c, '\n' + c)`: scan left to
right, replacing non-overlapping occurrences. -/
def replComma (close : Char) : List Char → List Char
  | ',' :: '\n' :: c :: rest =>
    if c = close then '\n' :: close :: replComma close rest
    else ',' :: replComma close ('\n' :: c :: rest)
  | c :: rest => c :: replComma close rest
  | [] => []

/-- The two replace passes of `clean_json_string`:
`.replace(',\n}', '\n}').replace(',\n]', '\n]')`. -/
def replaceCommas (l : List Char) : List Char :=
  replComma ']' (replComma '}' l)

/-- The opening/closing fence marker `'```json'`. -/
def Jmark : List Char := ("```json").toList

/-- The opening/closing fence marker `'```'`. -/
def Pmark : List Char := ("```").toList

/-- The four characters distinguishing the two markers. -/
def Kjson : List Char := ("json").toList

/-- One iteration of the marker loop in `clean_json_string`: strip the
marker from the front if it is a prefix, then from the back of the result
if it is a suffix. -/
def dropMark (m l : List Char) : List Char :=
  let l1 := if m.isPrefixOf l then l.drop m.length else l
  if m.isSuffixOf l1 then l1.take (l1.length - m.length) else l1

/-- `clean_json_string` from `src/formatter.py` (the identical function also
appears in `src/version-1/app.py` and `src/streamlit.py`): strip, remove the
fence markers `'```json'` then `'```'` from either end, re-strip, then fix
trailing commas before a closing brace or bracket. -/
def cleanChars (l : List Char) : List Char :=
  replaceCommas (stripChars (dropMark Pmark (dropMark Jmark (stripChars l))))

/-- String-level wrapper for `clean_json_string`. -/
def clean_json_string (s : String) : String := (cleanChars s.toList).asString

/-! ### Model of `json.loads` -/

/-- JSON inter-token whitespace. -/
def jsonWs (c : Char) : Bool := c = ' ' || c = '\t' || c = '\n' || c = '\r'

/-- Skip JSON whitespace. -/
def skipWs (l : List Char) : List Char := l.dropWhile jsonWs

/-- Parse the body of a JSON string after the opening quote, handling the
common escapes; returns the decoded characters and the input after the
closing quote. -/
def parseStringBody : Nat → List Char → Option (List Char × List Char)
  | 0, _ => Option.none
  | _, [] => Option.none
  | f + 1, c :: rest =>
    if c = '"' then Option.some ([], rest)
    else if c = '\\' then
      match rest with
      | [] => Option.none
      | e :: rest2 =>
        let esc : Option Char :=
          if e = '"' then Option.some '"'
          else if e = '\\' then Option.some '\\'
          else if e = '/' then Option.some '/'
          else if e = 'n' then Option.some '\n'
          else if e = 't' then Option.some '\t'
          else if e = 'r' then Option.some '\r'
          else if e = 'b' then Option.some (Char.ofNat 8)
          else if e = 'f' then Option.some (Char.ofNat 12)
          else Option.none
        match esc with
        | Option.none => Option.none
        | Option.some ec =>
          match parseStringBody f rest2 with
          | Option.some (cs, r) => Option.some (ec :: cs, r)
          | Option.none => Option.none
    else if c.toNat < 32 then Option.none
    else
      match parseStringBody f rest with
      | Option.some (cs, r) => Option.some (c :: cs, r)
      | Option.none => Option.none

/-- Parse a maximal run of decimal digits into a natural number. -/
def parseDigits (l : List Char) : Option (Nat × List Char) :=
  let ds := l.takeWhile Char.isDigit
  if ds.isEmpty then Option.none
  else Option.some (ds.foldl (fun a c => a * 10 + (c.toNat - 48)) 0, l.dropWhile Char.isDigit)

/-- True when a number continues with a fraction or exponent (floats are
outside this model; such inputs are rejected rather than mis-parsed). -/
def numCont : List Char → Bool
  | c :: _ => c = '.' || c = 'e' || c = 'E'
  | [] => false

mutual

/-- Recursive-descent model of the JSON value grammar (fuel-based). -/
def parseVal : Nat → List Char → Option (PyVal × List Char)
  | 0, _ => Option.none
  | f + 1, l0 =>
    match skipWs l0 with
    | [] => Option.none
    | c :: rest =>
      if c = 'n' then
        if (("ull").toList).isPrefixOf rest then Option.some (PyVal.none, rest.drop 3)
        else Option.none
      else if c = 't' then
        if (("rue").toList).isPrefixOf rest then Option.some (PyVal.bool true, rest.drop 3)
        else Option.none
      else if c = 'f' then
        if (("alse").toList).isPrefixOf rest then Option.some (PyVal.bool false, rest.drop 4)
        else Option.none
      else if c = '"' then
        match parseStringBody f rest with
        | Option.some (cs, r) => Option.some (PyVal.str cs.asString, r)
        | Option.none => Option.none
      else if c = '-' then
        match parseDigits rest with
        | Option.some (n, r) =>
          if numCont r then Option.none else Option.some (PyVal.int (-(n : Int)), r)
        | Option.none => Option.none
      else if c.isDigit then
        match parseDigits (c :: rest) with
        | Option.some (n, r) =>
          if numCont r then Option.none else Option.some (PyVal.int (n : Int), r)
        | Option.none => Option.none
      else if c = '[' then
        match skipWs rest with
        | ']' :: r => Option.some (PyVal.list [], r)
        | l2 =>
          match parseArrElems f l2 with
          | Option.some (vs, r) => Option.some (PyVal.list vs, r)
          | Option.none => Option.none
      else if c = '\x7b' then
        match skipWs rest with
        | '\x7d' :: r => Option.some (PyVal.dict [], r)
        | l2 =>
          match parseObjElems f l2 with
          | Option.some (ps, r) =>
            Option.some (PyVal.dict (ps.foldl (fun acc kv => dInsert kv.1 kv.2 acc) []), r)
          | Option.none => Option.none
      else Option.none

/-- Parse one or more comma-separated array elements up to `']'`. -/
def parseArrElems : Nat → List Char → Option (List PyVal × List Char)
  | 0, _ => Option.none
  | f + 1, l =>
    match parseVal f l with
    | Option.none => Option.none
    | Option.some (v, r) =>
      match skipWs r with
      | ',' :: r2 =>
        match parseArrElems f r2 with
        | Option.some (vs, r3) => Option.some (v :: vs, r3)
        | Option.none => Option.none
      | ']' :: r2 => Option.some ([v], r2)
      | _ => Option.none

/-- Parse one or more comma-separated `"key": value` members up to `'}'`. -/
def parseObjElems : Nat → List Char → Option (List (String × PyVal) × List Char)
  | 0, _ => Option.none
  | f + 1, l =>
    match l with
    | '"' :: r0 =>
      match parseStringBody f r0 with
      | Option.none => Option.none
      | Option.some (kcs, r1) =>
        match skipWs r1 with
        | ':' :: r2 =>
          match parseVal f r2 with
          | Option.none => Option.none
          | Option.some (v, r3) =>
            match skipWs r3 with
            | ',' :: r4 =>
              match parseObjElems f (skipWs r4) with
              | Option.some (ps, r5) => Option.some ((kcs.asString, v) :: ps, r5)
              | Option.none => Option.none
            | '\x7d' :: r4 => Option.some ([(kcs.asString, v)], r4)
            | _ => Option.none
        | _ => Option.none
    | _ => Option.none

end

/-- Model of `json.loads`: parse one JSON value and require only whitespace
to remain; `Option.none` models a raised `json.JSONDecodeError`. -/
def json_loads (s : String) : Option PyVal :=
  match parseVal (2 * s.length + 8) s.toList with
  | Option.some (v, r) => if (skipWs r).isEmpty then Option.some v else Option.none
  | Option.none => Option.none

/-- `parse_json_safely` from `src/formatter.py`: return the decoded value,
or `None` (here `PyVal.none`) when the decoder raises; the second argument
is only used for diagnostics in the source.  Note that a decoded JSON
`null` also yields `None`, exactly as in the source. -/
def parse_json_safely (json_str original_str : String) : PyVal :=
  match json_loads json_str with
  | Option.some v => v
  | Option.none => PyVal.none

/-! ### Shared formatter pieces (`src/formatter.py`, duplicated verbatim in
`src/version-1/app.py` and `src/streamlit.py`) -/

/-- Default title constant. -/
def DEFAULT_TITLE : String := "Trinity Catholic Media"

/-- Default description constant. -/
def DEFAULT_DESCRIPTION : String :=
  "Stay inspired daily! Follow our WhatsApp channel for the latest Bible verses: " ++
  "https://whatsapp.com/channel/0029VbAhLis0rGiVQd0HSw03"

/-- Promotional suffix appended to every non-default description. -/
def WHATSAPP_LINK : String :=
  "\n\nStay inspired daily! Follow our WhatsApp channel for the latest Bible verses: " ++
  "https://whatsapp.com/channel/0029VbAhLis0rGiVQd0HSw03"

/-- Python `x.strip()` where `x` may be any value: raises `AttributeError`
unless `x` is a string. -/
def pyStrip : PyVal → Except String String
  | PyVal.str s => Except.ok (stripS s)
  | _ => Except.error ("AttributeError")

/-- Python `x.lower()` where `x` may be any value: raises `AttributeError`
unless `x` is a string. -/
def pyLower : PyVal → Except String String
  | PyVal.str s => Except.ok ((s.toList.map Char.toLower).asString)
  | _ => Except.error ("AttributeError")

/-- `format_title`: fall back to the brand name when the value is falsy,
else the stripped title with the brand suffix. -/
def format_title (title : PyVal) : Except String String :=
  if truthy title = false then Except.ok DEFAULT_TITLE
  else do
    let s ← pyStrip title
    pure (s ++ (" | Trinity Catholic Media"))

/-- `format_description`: requires both verse fields to be truthy, else the
default sentence; otherwise the stripped Malayalam text, a blank line, the
`English: ` prefix, the stripped translation, and the promotional suffix. -/
def format_description (verse_malayalam verse_english : PyVal) : Except String String :=
  if truthy verse_malayalam = false ∨ truthy verse_english = false then
    Except.ok DEFAULT_DESCRIPTION
  else do
    let m ← pyStrip verse_malayalam
    let e ← pyStrip verse_english
    pure (m ++ ("\n\nEnglish: ") ++ e ++ WHATSAPP_LINK)

/-- `format_alt_text`: empty-string fallback, else the stripped value. -/
def format_alt_text (alt_text : PyVal) : Except String String :=
  if truthy alt_text = false then Except.ok ("")
  else pyStrip alt_text

namespace Formatter

/-- `REQUIRED_KEYS` of `src/formatter.py` — four keys, no
`confidence_level`. -/
def REQUIRED_KEYS : List String :=
  [("title"), ("extracted_bible_verse_malayalam"),
   ("bible_verse_english_translation"), ("alternative_text_for_main_content")]

/-- `ensure_required_fields` of `src/formatter.py`: non-dicts project to the
empty dict, dicts to `{key: data.get(key) for key in REQUIRED_KEYS}`. -/
def ensure_required_fields (data : PyVal) : List (String × PyVal) :=
  match data with
  | PyVal.dict d => REQUIRED_KEYS.map (fun k => (k, (dGet d k).getD PyVal.none))
  | _ => []

/-- The dict construction inside the `try` block of
`parse_and_format_gemini_output` in `src/formatter.py`; an `Except.error`
models an exception raised while evaluating a formatting rule. -/
def format_fields (data : List (String × PyVal)) : Except String (List (String × String)) := do
  let t ← format_title ((dGet data ("title")).getD PyVal.none)
  let d ← format_description
    ((dGet data ("extracted_bible_verse_malayalam")).getD PyVal.none)
    ((dGet data ("bible_verse_english_translation")).getD PyVal.none)
  let a ← format_alt_text ((dGet data ("alternative_text_for_main_content")).getD PyVal.none)
  pure [(("title"), t), (("description"), d), (("alt_text"), a)]

/-- `parse_and_format_gemini_output` of `src/formatter.py`. -/
def parse_and_format_gemini_output (output_str : String) : List (String × String) :=
  if output_str = ("") then []
  else
    let cleaned_str := clean_json_string output_str
    let parsed_data := parse_json_safely cleaned_str output_str
    if truthy parsed_data = false then []
    else
      match format_fields (ensure_required_fields parsed_data) with
      | Except.ok r => r
      | Except.error _ => []

end Formatter

namespace AppV1

/-- `REQUIRED_KEYS` of `src/version-1/app.py` and `src/streamlit.py` — five
keys including `confidence_level`. -/
def REQUIRED_KEYS : List String :=
  [("title"), ("extracted_bible_verse_malayalam"),
   ("bible_verse_english_translation"), ("alternative_text_for_main_content"),
   ("confidence_level")]

/-- `ensure_required_fields` of `src/version-1/app.py`. -/
def ensure_required_fields (data : PyVal) : List (String × PyVal) :=
  match data with
  | PyVal.dict d => REQUIRED_KEYS.map (fun k => (k, (dGet d k).getD PyVal.none))
  | _ => []

/-- The dict construction inside the `try` block of
`parse_and_format_gemini_output` in `src/version-1/app.py`, including the
`data.get("confidence_level", "low").lower()` entry.  Note the `.get`
default only applies when the key is absent from `data`. -/
def format_fields (data : List (String × PyVal)) : Except String (List (String × String)) := do
  let t ← format_title ((dGet data ("title")).getD PyVal.none)
  let d ← format_description
    ((dGet data ("extracted_bible_verse_malayalam")).getD PyVal.none)
    ((dGet data ("bible_verse_english_translation")).getD PyVal.none)
  let a ← format_alt_text ((dGet data ("alternative_text_for_main_content")).getD PyVal.none)
  let c ← pyLower ((dGet data ("confidence_level")).getD (PyVal.str ("low")))
  pure [(("title"), t), (("description"), d), (("alt_text"), a), (("confidence_level"), c)]

/-- `parse_and_format_gemini_output` of `src/version-1/app.py` and
`src/streamlit.py`. -/
def parse_and_format_gemini_output (output_str : String) : List (String × String) :=
  if output_str = ("") then []
  else
    let cleaned_str := clean_json_string output_str
    let parsed_data := parse_json_safely cleaned_str output_str
    if truthy parsed_data = false then []
    else
      match format_fields (ensure_required_fields parsed_data) with
      | Except.ok r => r
      | Except.error _ => []

end AppV1

/-- The confidence-gate condition of `src/main.py`:
`formatted_data.get("confidence_level", "low") != "high"`. -/
def confidence_gate (formatted_data : List (String × String)) : Bool :=
  ((List.lookup ("confidence_level") formatted_data).getD ("low")) != ("high")

/-! ### Helper lemmas about the field projector -/

/-- Looking a key up in the projection of `d` over `keys` gives the input's
value (or `None`) exactly for the keys in `keys`, and nothing otherwise. -/
theorem dGet_projection (keys : List String) (d : List (String × PyVal)) (k : String) :
    dGet (keys.map (fun k2 => (k2, (dGet d k2).getD PyVal.none))) k
      = if k ∈ keys then Option.some ((dGet d k).getD PyVal.none) else Option.none := by
  induction keys with
  | nil => simp [dGet]
  | cons a as ih =>
    simp only [List.map_cons, dGet]
    by_cases h : a = k
    · subst h; simp
    · have h2 : ¬ (k = a) := fun he => h he.symm
      simp [h, h2, ih, List.mem_cons]

/-! ### Claims -/

/-- C1: the spec says a parsed object with `confidence_level` absent or null
yields a formatted record whose `confidence_level` is `"low"` — and the code
itself writes `data.get("confidence_level", "low")` with that intent — but
`ensure_required_fields` always inserts the key bound to `None`, so the
`.get` default is dead, `None.lower()` raises, and the broad catch turns the
result into the empty dict.  First conjunct: a payload without
`confidence_level` produces the empty result.  Second conjunct: when a
string value is present the output does carry it lower-cased. -/
theorem confidence_default_unreachable :
    AppV1.parse_and_format_gemini_output ("\x7b\"title\": \"John 3:16\"\x7d") = []
    ∧ AppV1.parse_and_format_gemini_output ("\x7b\"confidence_level\": \"HIGH\"\x7d") =
        [(("title"), DEFAULT_TITLE), (("description"), DEFAULT_DESCRIPTION),
         (("alt_text"), ("")), (("confidence_level"), ("high"))] :=
  ⟨rfl, by decide⟩

/-- C2 counterexample: in `src/formatter.py` the projector does not retain
`confidence_level` even when the input binds it, so its output does not
contain the five RequiredFieldSet keys. -/
theorem ensure_required_fields_drops_confidence_cex :
    dGet (Formatter.ensure_required_fields
        (PyVal.dict [(("confidence_level"), PyVal.str ("high"))])) ("confidence_level")
      = Option.none := rfl

/-- C2 amended: the projector returns a mapping with exactly the module's
recognized keys in order, each bound to the input's value for that key or
null when absent, all other keys discarded, and the empty mapping on
non-dict input — five keys in `src/version-1/app.py` and `src/streamlit.py`,
but only four in `src/formatter.py`, whose key list omits
`confidence_level`. -/
theorem ensure_required_fields_projection :
    (∀ d k, dGet (AppV1.ensure_required_fields (PyVal.dict d)) k
        = if k ∈ AppV1.REQUIRED_KEYS then Option.some ((dGet d k).getD PyVal.none)
          else Option.none)
    ∧ (∀ d, (AppV1.ensure_required_fields (PyVal.dict d)).map Prod.fst = AppV1.REQUIRED_KEYS)
    ∧ (∀ d k, dGet (Formatter.ensure_required_fields (PyVal.dict d)) k
        = if k ∈ Formatter.REQUIRED_KEYS then Option.some ((dGet d k).getD PyVal.none)
          else Option.none)
    ∧ (∀ d, (Formatter.ensure_required_fields (PyVal.dict d)).map Prod.fst
        = Formatter.REQUIRED_KEYS)
    ∧ (∀ v, isDictV v = false →
        AppV1.ensure_required_fields v = [] ∧ Formatter.ensure_required_fields v = [])
    ∧ (("confidence_level") ∈ AppV1.REQUIRED_KEYS)
    ∧ (("confidence_level") ∉ Formatter.REQUIRED_KEYS) := by
  refine ⟨?_, ?_, ?_, ?_, ?_, by decide, by decide⟩
  · intro d k
    simpa [AppV1.ensure_required_fields] using dGet_projection AppV1.REQUIRED_KEYS d k
  · intro d; rfl
  · intro d k
    simpa [Formatter.ensure_required_fields] using dGet_projection Formatter.REQUIRED_KEYS d k
  · intro d; rfl
  · intro v hv
    cases v <;>
      simp_all [AppV1.ensure_required_fields, Formatter.ensure_required_fields, isDictV]

/-- C2 witness: the amended statement applied to a concrete non-dict
input. -/
theorem ensure_required_fields_projection_witness :
    AppV1.ensure_required_fields (PyVal.bool true) = []
    ∧ Formatter.ensure_required_fields (PyVal.bool true) = [] :=
  ensure_required_fields_projection.2.2.2.2.1 (PyVal.bool true) rfl

/-- C3 counterexample: on the spec's example input the sanitizer does not
return `'{"title": "John 3:16"}'`; the trailing-comma fix removes only the
comma, keeping the newline before the closing brace. -/
theorem sanitizer_example_cex :
    clean_json_string ("```json\n\x7b\"title\": \"John 3:16\",\n\x7d\n```")
      ≠ ("\x7b\"title\": \"John 3:16\"\x7d") := by decide

/-- C3 amended: on that input the sanitizer yields
`'{"title": "John 3:16"\n}'` (comma removed, newline retained), and the
parser applied to the sanitized string still yields the mapping
`{"title": "John 3:16"}`. -/
theorem sanitizer_example_amended :
    clean_json_string ("```json\n\x7b\"title\": \"John 3:16\",\n\x7d\n```")
      = ("\x7b\"title\": \"John 3:16\"\n\x7d")
    ∧ parse_json_safely
        (clean_json_string ("```json\n\x7b\"title\": \"John 3:16\",\n\x7d\n```"))
        ("```json\n\x7b\"title\": \"John 3:16\",\n\x7d\n```")
      = PyVal.dict [(("title"), PyVal.str ("John 3:16"))] :=
  ⟨rfl, rfl⟩

/-- C6: with both verse fields present as non-empty strings the description
is the trimmed Malayalam text, a blank line, `English: `, the trimmed
translation, then the fixed promotional suffix; if either field is missing
(None) or empty it is the fixed default sentence; including the spec's two
concrete examples. -/
theorem format_description_spec :
    (∀ m e : String, m ≠ ("") → e ≠ ("") →
      format_description (PyVal.str m) (PyVal.str e)
        = Except.ok (stripS m ++ ("\n\nEnglish: ") ++ stripS e ++ WHATSAPP_LINK))
    ∧ (∀ v w : PyVal,
        (v = PyVal.none ∨ v = PyVal.str ("")) ∨ (w = PyVal.none ∨ w = PyVal.str ("")) →
        format_description v w = Except.ok DEFAULT_DESCRIPTION)
    ∧ format_description (PyVal.str ("daivam")) (PyVal.str ("God"))
        = Except.ok (("daivam\n\nEnglish: God") ++ WHATSAPP_LINK)
    ∧ format_description PyVal.none (PyVal.str ("For God so loved the world"))
        = Except.ok DEFAULT_DESCRIPTION := by
  refine ⟨?_, ?_, rfl, rfl⟩
  · intro m e hm he
    have hm2 : (m != ("")) = true := by simpa [bne_iff_ne] using hm
    have he2 : (e != ("")) = true := by simpa [bne_iff_ne] using he
    simp only [format_description, truthy, hm2, he2, pyStrip]
    rfl
  · rintro v w (h | h) <;> rcases h with rfl | rfl <;>
      simp [format_description, truthy]

/-- C6 witness: the first conjunct applied at the spec's concrete example
pair. -/
theorem format_description_spec_witness :
    format_description (PyVal.str ("daivam ")) (PyVal.str ("God"))
      = Except.ok (stripS ("daivam ") ++ ("\n\nEnglish: ") ++ stripS ("God") ++ WHATSAPP_LINK) :=
  format_description_spec.1 ("daivam ") ("God") (by decide) (by decide)

/-- C7 counterexample: the parser wrapper can return a value that is neither
a mapping nor the `None` sentinel — decoding the string `true` returns the
boolean `True`. -/
theorem parse_json_safely_nondict_cex :
    parse_json_safely ("true") ("true") = PyVal.bool true
    ∧ isDictV (PyVal.bool true) = false
    ∧ PyVal.bool true ≠ PyVal.none :=
  ⟨rfl, rfl, fun h => nomatch h⟩

/-- C7 amended: `parse_json_safely` never raises (it is a total function in
this model, the decode error being caught and turned into `None`), and it
returns the decoded JSON value, which may be of any JSON type — object,
array, string, number, boolean — or `None` both for a decoded `null` and on
decode failure. -/
theorem parse_json_safely_value_kinds :
    parse_json_safely ("true") ("x") = PyVal.bool true
    ∧ parse_json_safely ("[1, 2]") ("x") = PyVal.list [PyVal.int 1, PyVal.int 2]
    ∧ parse_json_safely ("\"hi\"") ("x") = PyVal.str ("hi")
    ∧ parse_json_safely ("5") ("x") = PyVal.int 5
    ∧ parse_json_safely ("\x7b\"a\": null\x7d") ("x") = PyVal.dict [(("a"), PyVal.none)]
    ∧ parse_json_safely ("null") ("x") = PyVal.none
    ∧ parse_json_safely ("not json") ("x") = PyVal.none :=
  ⟨rfl, rfl, rfl, rfl, rfl, rfl, rfl⟩

/-! ### Helper lemmas about the content formatter -/

/-- Bind on a successful `Except` computation. -/
theorem except_bind_ok {α β : Type} (a : α) (f : α → Except String β) :
    (Except.ok a >>= f) = f a := rfl

/-- Bind on a failed `Except` computation. -/
theorem except_bind_error {α β : Type} (e : String) (f : α → Except String β) :
    ((Except.error e : Except String α) >>= f) = Except.error e := rfl

/-- Any title produced without an exception is a non-empty string. -/
theorem format_title_ok_ne (v : PyVal) (s : String)
    (h : format_title v = Except.ok s) : s ≠ ("") := by
  by_cases ht : truthy v = false
  · rw [format_title, if_pos ht] at h
    cases h; decide
  · rw [format_title, if_neg ht] at h
    cases hs : pyStrip v with
    | error e => rw [hs, except_bind_error] at h; exact nomatch h
    | ok u =>
      rw [hs, except_bind_ok] at h
      cases h
      intro he
      have hd := congrArg String.data he
      rw [String.data_append, List.append_eq_nil] at hd
      exact absurd hd.2 (by decide)

/-- Any description produced without an exception is a non-empty string. -/
theorem format_description_ok_ne (v w : PyVal) (s : String)
    (h : format_description v w = Except.ok s) : s ≠ ("") := by
  by_cases ht : truthy v = false ∨ truthy w = false
  · rw [format_description, if_pos ht] at h
    cases h; decide
  · rw [format_description, if_neg ht] at h
    cases hv : pyStrip v with
    | error e => rw [hv, except_bind_error] at h; exact nomatch h
    | ok m =>
      rw [hv, except_bind_ok] at h
      cases hw : pyStrip w with
      | error e => rw [hw, except_bind_error] at h; exact nomatch h
      | ok e2 =>
        rw [hw, except_bind_ok] at h
        cases h
        intro he
        have hd := congrArg String.data he
        simp only [String.data_append, List.append_eq_nil] at hd
        exact absurd hd.1.1.2 (by decide)

/-- A successful run of the formatter dict construction in
`src/formatter.py` yields exactly the three keys, in order, with the values
returned by the three formatting rules. -/
theorem format_fields_shape (data : List (String × PyVal)) (r : List (String × String))
    (h : Formatter.format_fields data = Except.ok r) :
    ∃ t d a, r = [(("title"), t), (("description"), d), (("alt_text"), a)]
      ∧ format_title ((dGet data ("title")).getD PyVal.none) = Except.ok t
      ∧ format_description
          ((dGet data ("extracted_bible_verse_malayalam")).getD PyVal.none)
          ((dGet data ("bible_verse_english_translation")).getD PyVal.none) = Except.ok d := by
  rw [Formatter.format_fields] at h
  cases h1 : format_title ((dGet data ("title")).getD PyVal.none) with
  | error e => rw [h1, except_bind_error] at h; exact nomatch h
  | ok t =>
    rw [h1, except_bind_ok] at h
    cases h2 : format_description
        ((dGet data ("extracted_bible_verse_malayalam")).getD PyVal.none)
        ((dGet data ("bible_verse_english_translation")).getD PyVal.none) with
    | error e => rw [h2, except_bind_error] at h; exact nomatch h
    | ok d =>
      rw [h2, except_bind_ok] at h
      cases h3 : format_alt_text
          ((dGet data ("alternative_text_for_main_content")).getD PyVal.none) with
      | error e => rw [h3, except_bind_error] at h; exact nomatch h
      | ok a =>
        rw [h3, except_bind_ok] at h
        have h4 : Except.ok [(("title"), t), (("description"), d), (("alt_text"), a)]
            = Except.ok r := h
        exact ⟨t, d, a, (Except.ok.inj h4).symm, rfl, rfl⟩

/-- Every output of the `src/formatter.py` pipeline is either empty or a
three-entry record with non-empty title and description. -/
theorem parse_and_format_shape (out : String) :
    Formatter.parse_and_format_gemini_output out = []
    ∨ ∃ t d a, Formatter.parse_and_format_gemini_output out
          = [(("title"), t), (("description"), d), (("alt_text"), a)]
        ∧ t ≠ ("") ∧ d ≠ ("") := by
  by_cases h0 : out = ("")
  · left; simp [Formatter.parse_and_format_gemini_output, h0]
  · by_cases h1 : truthy (parse_json_safely (clean_json_string out) out) = false
    · left; simp [Formatter.parse_and_format_gemini_output, h0, h1]
    · cases h2 : Formatter.format_fields (Formatter.ensure_required_fields
          (parse_json_safely (clean_json_string out) out)) with
      | error e => left; simp [Formatter.parse_and_format_gemini_output, h0, h1, h2]
      | ok r =>
        right
        obtain ⟨t, d, a, hr, ht, hd⟩ := format_fields_shape _ r h2
        refine ⟨t, d, a, ?_, format_title_ok_ne _ t ht, format_description_ok_ne _ _ d hd⟩
        rw [← hr]
        simp [Formatter.parse_and_format_gemini_output, h0, h1, h2]

/-- C5: every non-empty mapping returned by `parse_and_format_gemini_output`
in `src/formatter.py` binds `title` and `description` to non-empty strings
(with the brand name and the default sentence as the fallbacks), while
`alt_text` may be the empty string. -/
theorem formatted_post_nonempty_fields :
    (∀ out t d a, Formatter.parse_and_format_gemini_output out
        = [(("title"), t), (("description"), d), (("alt_text"), a)] →
        t ≠ ("") ∧ d ≠ (""))
    ∧ (∀ out, Formatter.parse_and_format_gemini_output out ≠ [] →
        ∃ t d a, Formatter.parse_and_format_gemini_output out
            = [(("title"), t), (("description"), d), (("alt_text"), a)]
          ∧ t ≠ ("") ∧ d ≠ (""))
    ∧ format_title PyVal.none = Except.ok DEFAULT_TITLE
    ∧ format_description PyVal.none PyVal.none = Except.ok DEFAULT_DESCRIPTION
    ∧ List.lookup ("alt_text")
        (Formatter.parse_and_format_gemini_output ("\x7b\"title\": \"Jn 1:1\"\x7d"))
        = Option.some ("") := by
  refine ⟨?_, ?_, rfl, rfl, rfl⟩
  · intro out t d a h
    rcases parse_and_format_shape out with h0 | ⟨t2, d2, a2, he, ht2, hd2⟩
    · rw [h0] at h; exact nomatch h
    · rw [he] at h
      simp only [List.cons.injEq, Prod.mk.injEq, and_true, true_and] at h
      obtain ⟨ht, hd, _⟩ := h
      exact ⟨ht ▸ ht2, hd ▸ hd2⟩
  · intro out hne
    rcases parse_and_format_shape out with h0 | hx
    · exact absurd h0 hne
    · exact hx

/-- C5 witness: a concrete input whose non-empty output satisfies the
invariant. -/
theorem formatted_post_nonempty_fields_witness :
    ∃ t d a, Formatter.parse_and_format_gemini_output ("\x7b\"title\": \"Jn 3:16\"\x7d")
        = [(("title"), t), (("description"), d), (("alt_text"), a)]
      ∧ t ≠ ("") ∧ d ≠ ("") :=
  formatted_post_nonempty_fields.2.1 ("\x7b\"title\": \"Jn 3:16\"\x7d") (by decide)

/-- C8: when the payload parses to a truthy value but one of the formatting
rules raises (modelled by `format_fields` returning an error),
`parse_and_format_gemini_output` catches the exception and returns the
empty mapping. -/
theorem formatter_catches_exceptions (out : String) (e : String)
    (hp : truthy (parse_json_safely (clean_json_string out) out) = true)
    (he : Formatter.format_fields (Formatter.ensure_required_fields
        (parse_json_safely (clean_json_string out) out)) = Except.error e) :
    Formatter.parse_and_format_gemini_output out = [] := by
  by_cases h0 : out = ("")
  · subst h0; exact absurd hp (by decide)
  · have h1 : ¬ (truthy (parse_json_safely (clean_json_string out) out) = false) := by
      simp [hp]
    simp [Formatter.parse_and_format_gemini_output, h0, h1, he]

/-- C8 witness: a boolean in the `title` field makes `format_title` call
`.strip()` on a non-string; the exception is caught and the result is
empty. -/
theorem formatter_catches_exceptions_witness :
    Formatter.parse_and_format_gemini_output ("\x7b\"title\": true\x7d") = [] :=
  formatter_catches_exceptions ("\x7b\"title\": true\x7d") ("AttributeError") rfl rfl

/-- C10: every non-empty mapping returned by the `src/formatter.py` pipeline
has key set exactly `title`, `description`, `alt_text`; it never contains
`confidence_level` (that module's `REQUIRED_KEYS` has only four entries),
so the confidence gate of `src/main.py` never finds the key and always
takes its warning branch. -/
theorem formatter_output_keys :
    (∀ out, Formatter.parse_and_format_gemini_output out ≠ [] →
      (Formatter.parse_and_format_gemini_output out).map Prod.fst
          = [("title"), ("description"), ("alt_text")]
        ∧ List.lookup ("confidence_level") (Formatter.parse_and_format_gemini_output out)
            = Option.none
        ∧ confidence_gate (Formatter.parse_and_format_gemini_output out) = true)
    ∧ (("confidence_level")) ∉ Formatter.REQUIRED_KEYS
    ∧ Formatter.REQUIRED_KEYS.length = 4 := by
  refine ⟨?_, by decide, rfl⟩
  intro out hne
  rcases parse_and_format_shape out with h0 | ⟨t, d, a, he, _, _⟩
  · exact absurd h0 hne
  · rw [he]
    refine ⟨rfl, ?_, ?_⟩ <;> simp [List.lookup, confidence_gate]

/-- C10 witness: a concrete non-empty output with exactly the three keys
and no `confidence_level`. -/
theorem formatter_output_keys_witness :
    (Formatter.parse_and_format_gemini_output ("\x7b\"notes\": \"n\"\x7d")).map Prod.fst
        = [("title"), ("description"), ("alt_text")]
      ∧ List.lookup ("confidence_level")
          (Formatter.parse_and_format_gemini_output ("\x7b\"notes\": \"n\"\x7d"))
          = Option.none
      ∧ confidence_gate (Formatter.parse_and_format_gemini_output ("\x7b\"notes\": \"n\"\x7d"))
          = true :=
  formatter_output_keys.1 ("\x7b\"notes\": \"n\"\x7d") (by decide)

/-! ### Model of `src/pinterest_api.py` -/

/-- Abstraction of the filesystem facts consulted by the `image_path`
validator (`Path.exists`, `Path.is_file`, `os.access(..., R_OK)`). -/
structure FileSys where
  pathExists : String → Bool
  isFile : String → Bool
  readable : String → Bool

/-- The validated `PinData` record (pydantic model). -/
structure PinData where
  board_id : String
  image_path : String
  title : String
  description : String
  alt_text : String
  tags : Option (List String)
  access_token : String

/-- The `image_path` field validator: the file must exist, be a regular
file, and be readable. -/
def validate_image_path (fs : FileSys) (v : String) : Except String String :=
  if fs.pathExists v = false then Except.error (("Image file not found: ") ++ v)
  else if fs.isFile v = false then Except.error (("Path is not a file: ") ++ v)
  else if fs.readable v = false then Except.error (("Cannot read image file: ") ++ v)
  else Except.ok v

/-- The `validate_not_empty` field validator: reject empty or
whitespace-only strings, return the stripped value. -/
def validate_not_empty (v : String) : Except String String :=
  if v = ("") ∨ stripS v = ("") then Except.error ("Field cannot be empty")
  else Except.ok (stripS v)

/-- The `validate_tags_content` model validator (runs after the field
validators succeed): a falsy tag list (absent or empty) is skipped,
otherwise at most 20 tags, none of them empty after stripping. -/
def validate_tags_content (tags : Option (List String)) (pd : PinData) :
    Except (List String) PinData :=
  match tags with
  | Option.none => Except.ok pd
  | Option.some ts =>
    if ts.isEmpty then Except.ok pd
    else if 20 < ts.length then Except.error [("Too many tags (max 20)")]
    else if ts.any (fun t => stripS t = ("")) then Except.error [("Tags cannot be empty")]
    else Except.ok pd

/-- The field-validation stage of pydantic's `PinData(...)` construction:
collect the error of every failing field validator (pydantic aggregates
them into one `ValidationError`).  A missing access token (`None` where a
`str` is required) is a type error at the same stage. -/
def fieldErrors (fs : FileSys) (board_id image_path title description alt_text : String)
    (access_token : Option String) : List String :=
  (match validate_not_empty board_id with | Except.error m => [m] | Except.ok _ => [])
  ++ (match validate_image_path fs image_path with | Except.error m => [m] | Except.ok _ => [])
  ++ (match validate_not_empty title with | Except.error m => [m] | Except.ok _ => [])
  ++ (match validate_not_empty description with | Except.error m => [m] | Except.ok _ => [])
  ++ (match validate_not_empty alt_text with | Except.error m => [m] | Except.ok _ => [])
  ++ (match access_token with
      | Option.none => [("Input should be a valid string")]
      | Option.some t =>
        match validate_not_empty t with | Except.error m => [m] | Except.ok _ => [])

/-- `PinData(...)`: run all field validators, and on success build the
normalized record and run the model validator; any failure is a
`ValidationError` carrying the collected messages. -/
def mkPinData (fs : FileSys) (board_id image_path title description alt_text : String)
    (tags : Option (List String)) (access_token : Option String) :
    Except (List String) PinData :=
  match fieldErrors fs board_id image_path title description alt_text access_token with
  | [] =>
    validate_tags_content tags
      { board_id := stripS board_id
        image_path := image_path
        title := stripS title
        description := stripS description
        alt_text := stripS alt_text
        tags := tags
        access_token := (match access_token with
                         | Option.some t => stripS t
                         | Option.none => ("")) }
  | e :: es => Except.error (e :: es)

/-- Python `access_token or os.getenv("PINTEREST_ACCESS_TOKEN")`: the
environment value is used when the argument is falsy (None or empty). -/
def resolveToken (access_token env_token : Option String) : Option String :=
  match access_token with
  | Option.some t => if t = ("") then env_token else Option.some t
  | Option.none => env_token

/-- `create_pin`: construct and validate `PinData`; on `ValidationError`
print and return `None` without any network activity; on success call
`upload_pin` (abstracted here as a parameter, since it performs the HTTP
request).  The boolean records whether the network path was reached. -/
def create_pin {α : Type} (upload : PinData → Option α) (fs : FileSys)
    (env_token : Option String)
    (board_id image_path title description alt_text : String)
    (tags : Option (List String)) (access_token : Option String) :
    Option α × Bool :=
  match mkPinData fs board_id image_path title description alt_text tags
      (resolveToken access_token env_token) with
  | Except.error _ => (Option.none, false)
  | Except.ok pd => (upload pd, true)

/-- When any field validator fails, `create_pin` neither uploads nor
returns a response. -/
theorem create_pin_stops_on_error {α : Type} (upload : PinData → Option α)
    (fs : FileSys) (env : Option String) (b img ti de al : String)
    (tg : Option (List String)) (tok : Option String)
    (h : fieldErrors fs b img ti de al (resolveToken tok env) ≠ []) :
    create_pin upload fs env b img ti de al tg tok = (Option.none, false) := by
  rw [create_pin, mkPinData.eq_def]
  cases hfe : fieldErrors fs b img ti de al (resolveToken tok env) with
  | nil => exact absurd hfe h
  | cons e es => rfl

/-- A nonexistent image path contributes its descriptive message to the
collected field errors. -/
theorem fieldErrors_mem_image (fs : FileSys) (b img ti de al : String)
    (tokA : Option String) (h : fs.pathExists img = false) :
    (("Image file not found: ") ++ img) ∈ fieldErrors fs b img ti de al tokA := by
  have hv : validate_image_path fs img = Except.error (("Image file not found: ") ++ img) := by
    rw [validate_image_path, if_pos h]
  simp [fieldErrors, hv]

/-- A path that is missing, not a regular file, or not readable makes the
image-path validator fail with one of its three descriptive messages, each
naming the file. -/
theorem validate_image_path_error (fs : FileSys) (img : String)
    (h : fs.pathExists img = false ∨ fs.isFile img = false ∨ fs.readable img = false) :
    ∃ m, validate_image_path fs img = Except.error m
      ∧ (m = ("Image file not found: ") ++ img ∨ m = ("Path is not a file: ") ++ img
         ∨ m = ("Cannot read image file: ") ++ img) := by
  by_cases h1 : fs.pathExists img = false
  · exact ⟨_, by rw [validate_image_path, if_pos h1], Or.inl rfl⟩
  · by_cases h2 : fs.isFile img = false
    · exact ⟨_, by rw [validate_image_path, if_neg h1, if_pos h2], Or.inr (Or.inl rfl)⟩
    · have h3 : fs.readable img = false := by
        rcases h with h | h | h
        · exact absurd h h1
        · exact absurd h h2
        · exact h
      exact ⟨_, by rw [validate_image_path, if_neg h1, if_neg h2, if_pos h3],
        Or.inr (Or.inr rfl)⟩

/-- Any failure of the image-path validator contributes its message to the
collected field errors. -/
theorem fieldErrors_mem_of_image_error (fs : FileSys) (b img ti de al : String)
    (tokA : Option String) (m : String)
    (hv : validate_image_path fs img = Except.error m) :
    m ∈ fieldErrors fs b img ti de al tokA := by
  simp [fieldErrors, hv]

/-- C9: `create_pin` rejects — returning `None` after a `ValidationError`,
with no network request — whenever the image path does not name an
existing readable regular file (any of the exists / is-file / readable
checks failing, each reported with a message naming the file), or any of
board id, title, description, alt text, or access token is empty or
whitespace-only (or the token is missing entirely), or the tag list has
more than 20 entries or contains a whitespace-only tag; in particular a
nonexistent image path is reported with the `Image file not found` error
naming the image file, and a 25-entry tag list with the too-many-tags
violation. -/
theorem create_pin_validation_gate :
    (∀ (α : Type) (upload : PinData → Option α) (fs : FileSys) (env : Option String)
       (b img ti de al : String) (tg : Option (List String)) (tok : Option String),
       (fs.pathExists img = false ∨ fs.isFile img = false ∨ fs.readable img = false) →
         create_pin upload fs env b img ti de al tg tok = (Option.none, false)
         ∧ ∃ errs m, mkPinData fs b img ti de al tg (resolveToken tok env) = Except.error errs
             ∧ m ∈ errs
             ∧ (m = ("Image file not found: ") ++ img ∨ m = ("Path is not a file: ") ++ img
                ∨ m = ("Cannot read image file: ") ++ img))
    ∧ (∀ (α : Type) (upload : PinData → Option α) (fs : FileSys) (env : Option String)
       (b img ti de al : String) (tg : Option (List String)) (tok : Option String),
       fs.pathExists img = false →
         create_pin upload fs env b img ti de al tg tok = (Option.none, false)
         ∧ ∃ errs, mkPinData fs b img ti de al tg (resolveToken tok env) = Except.error errs
             ∧ (("Image file not found: ") ++ img) ∈ errs)
    ∧ (∀ (α : Type) (upload : PinData → Option α) (fs : FileSys) (env : Option String)
        (b img ti de al : String) (tg : Option (List String)) (tok : Option String),
        (stripS b = ("") ∨ stripS ti = ("") ∨ stripS de = ("") ∨ stripS al = ("")
          ∨ resolveToken tok env = Option.none
          ∨ (∃ t, resolveToken tok env = Option.some t ∧ stripS t = (""))) →
        create_pin upload fs env b img ti de al tg tok = (Option.none, false))
    ∧ (∀ (α : Type) (upload : PinData → Option α) (fs : FileSys) (env : Option String)
        (b img ti de al : String) (ts : List String) (tok : Option String),
        (20 < ts.length ∨ ∃ t ∈ ts, stripS t = ("")) →
        create_pin upload fs env b img ti de al (Option.some ts) tok = (Option.none, false))
    ∧ mkPinData ⟨fun _ => true, fun _ => true, fun _ => true⟩ ("board") ("img.jpg")
        ("t") ("d") ("a") (Option.some (List.replicate 25 ("tag"))) (Option.some ("token"))
        = Except.error [("Too many tags (max 20)")] := by
  refine ⟨?_, ?_, ?_, ?_, rfl⟩
  · intro α upload fs env b img ti de al tg tok h
    obtain ⟨m, hv, hm3⟩ := validate_image_path_error fs img h
    have hm := fieldErrors_mem_of_image_error fs b img ti de al (resolveToken tok env) m hv
    have hne : fieldErrors fs b img ti de al (resolveToken tok env) ≠ [] :=
      List.ne_nil_of_mem hm
    refine ⟨create_pin_stops_on_error upload fs env b img ti de al tg tok hne, ?_⟩
    rcases hfe : fieldErrors fs b img ti de al (resolveToken tok env) with _ | ⟨e, es⟩
    · exact absurd hfe hne
    · refine ⟨e :: es, m, ?_, hfe ▸ hm, hm3⟩
      rw [mkPinData.eq_def, hfe]
  · intro α upload fs env b img ti de al tg tok h
    have hm := fieldErrors_mem_image fs b img ti de al (resolveToken tok env) h
    have hne : fieldErrors fs b img ti de al (resolveToken tok env) ≠ [] :=
      List.ne_nil_of_mem hm
    refine ⟨create_pin_stops_on_error upload fs env b img ti de al tg tok hne, ?_⟩
    rcases hfe : fieldErrors fs b img ti de al (resolveToken tok env) with _ | ⟨e, es⟩
    · exact absurd hfe hne
    · refine ⟨e :: es, ?_, hfe ▸ hm⟩
      rw [mkPinData.eq_def, hfe]
  · intro α upload fs env b img ti de al tg tok h
    apply create_pin_stops_on_error
    rcases h with h | h | h | h | h | ⟨t, ht, hts⟩ <;> apply List.ne_nil_of_mem
    · have hv : validate_not_empty b = Except.error ("Field cannot be empty") := by
        rw [validate_not_empty, if_pos (Or.inr h)]
      exact (by simp [fieldErrors, hv] :
        ("Field cannot be empty") ∈ fieldErrors fs b img ti de al (resolveToken tok env))
    · have hv : validate_not_empty ti = Except.error ("Field cannot be empty") := by
        rw [validate_not_empty, if_pos (Or.inr h)]
      exact (by simp [fieldErrors, hv] :
        ("Field cannot be empty") ∈ fieldErrors fs b img ti de al (resolveToken tok env))
    · have hv : validate_not_empty de = Except.error ("Field cannot be empty") := by
        rw [validate_not_empty, if_pos (Or.inr h)]
      exact (by simp [fieldErrors, hv] :
        ("Field cannot be empty") ∈ fieldErrors fs b img ti de al (resolveToken tok env))
    · have hv : validate_not_empty al = Except.error ("Field cannot be empty") := by
        rw [validate_not_empty, if_pos (Or.inr h)]
      exact (by simp [fieldErrors, hv] :
        ("Field cannot be empty") ∈ fieldErrors fs b img ti de al (resolveToken tok env))
    · exact (by simp [fieldErrors, h] :
        ("Input should be a valid string") ∈ fieldErrors fs b img ti de al (resolveToken tok env))
    · have hv : validate_not_empty t = Except.error ("Field cannot be empty") := by
        rw [validate_not_empty, if_pos (Or.inr hts)]
      exact (by simp [fieldErrors, ht, hv] :
        ("Field cannot be empty") ∈ fieldErrors fs b img ti de al (resolveToken tok env))
  · intro α upload fs env b img ti de al ts tok h
    rw [create_pin, mkPinData.eq_def]
    cases hfe : fieldErrors fs b img ti de al (resolveToken tok env) with
    | cons e es => rfl
    | nil =>
      have hts : ts.isEmpty = false := by
        rcases h with h | ⟨t, ht, _⟩
        · cases ts with
          | nil => exact absurd h (by simp)
          | cons x xs => rfl
        · cases ts with
          | nil => exact absurd ht (by simp)
          | cons x xs => rfl
      rw [validate_tags_content]
      simp only [hts]
      by_cases h20 : 20 < ts.length
      · rw [if_neg (by simp), if_pos h20]
      · rcases h with h | ⟨t, ht, hts2⟩
        · exact absurd h h20
        · have hany : ts.any (fun t => stripS t = ("")) = true := by
            simp only [List.any_eq_true, decide_eq_true_eq]
            exact ⟨t, ht, hts2⟩
          rw [if_neg (by simp), if_neg h20, if_pos hany]

/-- C9 witness: a nonexistent path, a path that is not a regular file, and
a path that is not readable are each rejected with no network request, and
for the nonexistent path the collected validation errors name the image
file. -/
theorem create_pin_validation_gate_witness :
    create_pin (fun _ => (Option.none : Option Unit))
        ⟨fun _ => false, fun _ => true, fun _ => true⟩ (Option.some ("envtok"))
        ("board") ("missing.jpg") ("t") ("d") ("a") Option.none (Option.some ("tok"))
      = (Option.none, false)
    ∧ create_pin (fun _ => (Option.none : Option Unit))
        ⟨fun _ => true, fun _ => false, fun _ => true⟩ (Option.some ("envtok"))
        ("board") ("somedir") ("t") ("d") ("a") Option.none (Option.some ("tok"))
      = (Option.none, false)
    ∧ create_pin (fun _ => (Option.none : Option Unit))
        ⟨fun _ => true, fun _ => true, fun _ => false⟩ (Option.some ("envtok"))
        ("board") ("locked.jpg") ("t") ("d") ("a") Option.none (Option.some ("tok"))
      = (Option.none, false)
    ∧ ∃ errs, mkPinData ⟨fun _ => false, fun _ => true, fun _ => true⟩
        ("board") ("missing.jpg") ("t") ("d") ("a") Option.none
        (resolveToken (Option.some ("tok")) (Option.some ("envtok"))) = Except.error errs
        ∧ (("Image file not found: ") ++ ("missing.jpg")) ∈ errs :=
  ⟨(create_pin_validation_gate.2.1 Unit (fun _ => Option.none)
      ⟨fun _ => false, fun _ => true, fun _ => true⟩ (Option.some ("envtok"))
      ("board") ("missing.jpg") ("t") ("d") ("a") Option.none (Option.some ("tok")) rfl).1,
   (create_pin_validation_gate.1 Unit (fun _ => Option.none)
      ⟨fun _ => true, fun _ => false, fun _ => true⟩ (Option.some ("envtok"))
      ("board") ("somedir") ("t") ("d") ("a") Option.none (Option.some ("tok"))
      (Or.inr (Or.inl rfl))).1,
   (create_pin_validation_gate.1 Unit (fun _ => Option.none)
      ⟨fun _ => true, fun _ => true, fun _ => false⟩ (Option.some ("envtok"))
      ("board") ("locked.jpg") ("t") ("d") ("a") Option.none (Option.some ("tok"))
      (Or.inr (Or.inr rfl))).1,
   (create_pin_validation_gate.2.1 Unit (fun _ => Option.none)
      ⟨fun _ => false, fun _ => true, fun _ => true⟩ (Option.some ("envtok"))
      ("board") ("missing.jpg") ("t") ("d") ("a") Option.none (Option.some ("tok")) rfl).2⟩

/-! ### Sanitizer algebra (for the fence-wrapping invariant) -/

/-- A list whose head is not whitespace is unchanged by `dropWhile wsp`. -/
theorem dropWhile_id_of_head (l : List Char)
    (h : ∀ c, l.head? = Option.some c → wsp c = false) : l.dropWhile wsp = l := by
  cases l with
  | nil => rfl
  | cons a t => rw [List.dropWhile_cons_of_neg]; simp [h a rfl]

/-- The head surviving `dropWhile wsp` is not whitespace. -/
theorem head_dropWhile_wsp (l : List Char) (c : Char)
    (h : (l.dropWhile wsp).head? = Option.some c) : wsp c = false := by
  induction l with
  | nil => exact nomatch h
  | cons a t ih =>
    by_cases ha : wsp a = true
    · rw [List.dropWhile_cons_of_pos ha] at h
      exact ih h
    · rw [List.dropWhile_cons_of_neg ha] at h
      cases h
      exact Bool.eq_false_iff.mpr ha

/-- Stripping does not change a list whose two ends are not whitespace. -/
theorem stripChars_id (l : List Char)
    (hh : ∀ c, l.head? = Option.some c → wsp c = false)
    (hl : ∀ c, l.getLast? = Option.some c → wsp c = false) : stripChars l = l := by
  rw [stripChars, dropWhile_id_of_head l hh, dropWhile_id_of_head, List.reverse_reverse]
  intro c hc
  rw [List.head?_reverse] at hc
  exact hl c hc

/-- `dropWhile` yields a suffix, so a non-empty result keeps the last
element. -/
theorem getLast_dropWhile_wsp (l : List Char) (c : Char)
    (h : (l.dropWhile wsp).getLast? = Option.some c) : l.getLast? = Option.some c := by
  rcases List.dropWhile_suffix wsp (l := l) with ⟨t, ht⟩
  rw [← ht, List.getLast?_append]
  rw [h]
  rfl

/-- Stripping is idempotent. -/
theorem stripChars_idem (l : List Char) : stripChars (stripChars l) = stripChars l := by
  apply stripChars_id
  · intro c hc
    rw [stripChars, List.head?_reverse] at hc
    have := getLast_dropWhile_wsp (l.dropWhile wsp).reverse c hc
    rw [List.getLast?_reverse] at this
    exact head_dropWhile_wsp l c this
  · intro c hc
    rw [stripChars, List.getLast?_reverse] at hc
    exact head_dropWhile_wsp (l.dropWhile wsp).reverse c hc

/-- Decompose a prefix of a concatenation: either it stays in the first
part, or it covers the first part and its rest is a prefix of the second. -/
theorem prefix_split (a : List Char) (p b : List Char) (h : p <+: a ++ b) :
    p <+: a ∨ (a <+: p ∧ p.drop a.length <+: b) := by
  induction a generalizing p with
  | nil => exact Or.inr ⟨List.nil_prefix, h⟩
  | cons x a2 ih =>
    cases p with
    | nil => exact Or.inl List.nil_prefix
    | cons y p2 =>
      rw [List.cons_append, List.cons_prefix_cons] at h
      obtain ⟨rfl, h2⟩ := h
      rcases ih p2 h2 with h3 | ⟨h3, h4⟩
      · exact Or.inl (List.cons_prefix_cons.mpr ⟨rfl, h3⟩)
      · exact Or.inr ⟨List.cons_prefix_cons.mpr ⟨rfl, h3⟩, h4⟩

/-- A non-whitespace prefix survives stripping. -/
theorem prefix_stripChars (p x : List Char) (hp : p ≠ [])
    (hw : ∀ c ∈ p, wsp c = false) (h : p <+: x) : p <+: stripChars x := by
  obtain ⟨r, rfl⟩ := h
  have h1 : (p ++ r).dropWhile wsp = p ++ r := by
    apply dropWhile_id_of_head
    intro c hc
    cases p with
    | nil => exact absurd rfl hp
    | cons a t =>
      rw [List.cons_append] at hc
      have h2 : a = c := by injection hc
      exact h2 ▸ hw a (List.mem_cons_self a t)
  rw [stripChars, h1, List.reverse_append, List.dropWhile_append]
  by_cases h2 : (r.reverse.dropWhile wsp).isEmpty
  · rw [if_pos h2]
    have h3 : p.reverse.dropWhile wsp = p.reverse := by
      apply dropWhile_id_of_head
      intro c hc
      rw [List.head?_reverse] at hc
      exact hw c (List.mem_of_getLast?_eq_some hc)
    rw [h3, List.reverse_reverse]
  · rw [if_neg h2, List.reverse_append, List.reverse_reverse]
    exact List.prefix_append p _

/-- A non-whitespace suffix survives stripping. -/
theorem suffix_stripChars (p x : List Char) (hp : p ≠ [])
    (hw : ∀ c ∈ p, wsp c = false) (h : p <:+ x) : p <:+ stripChars x := by
  obtain ⟨r, rfl⟩ := h
  have h1 : p <:+ (r ++ p).dropWhile wsp := by
    rw [List.dropWhile_append]
    by_cases h2 : (r.dropWhile wsp).isEmpty
    · rw [if_pos h2]
      have h3 : p.dropWhile wsp = p := by
        apply dropWhile_id_of_head
        intro c hc
        cases p with
        | nil => exact absurd rfl hp
        | cons a t =>
          have h2 : a = c := by injection hc
          exact h2 ▸ hw a (List.mem_cons_self a t)
      rw [h3]
    · rw [if_neg h2]
      exact List.suffix_append _ p
  obtain ⟨u, hu⟩ := h1
  rw [stripChars, ← hu, List.reverse_append, List.dropWhile_append]
  have h4 : p.reverse.dropWhile wsp = p.reverse := by
    apply dropWhile_id_of_head
    intro c hc
    rw [List.head?_reverse] at hc
    exact hw c (List.mem_of_getLast?_eq_some hc)
  by_cases h5 : (p.reverse.dropWhile wsp).isEmpty
  · rw [h4] at h5
    simp only [List.isEmpty_iff, List.reverse_eq_nil_iff] at h5
    exact absurd h5 hp
  · rw [if_neg h5, h4, ← List.reverse_append, List.reverse_reverse]
    exact List.suffix_append u p

/-- `dropMark` when the marker is a prefix: the prefix is removed, then the
suffix check runs on the remainder. -/
theorem dropMark_pre (m u : List Char) :
    dropMark m (m ++ u) = if m <:+ u then u.take (u.length - m.length) else u := by
  have hp : m.isPrefixOf (m ++ u) = true :=
    List.isPrefixOf_iff_prefix.mpr (List.prefix_append m u)
  by_cases hs : m <:+ u
  · have hs2 : m.isSuffixOf u = true := List.isSuffixOf_iff_suffix.mpr hs
    simp [dropMark, hp, hs2, hs, List.drop_left]
  · have hs2 : m.isSuffixOf u = false := by
      cases hb : m.isSuffixOf u
      · rfl
      · exact absurd (List.isSuffixOf_iff_suffix.mp hb) hs
    simp [dropMark, hp, hs2, hs, List.drop_left]

/-- `dropMark` when the marker is not a prefix: only the suffix check runs. -/
theorem dropMark_nopre (m l : List Char) (h : ¬ m <+: l) :
    dropMark m l = if m <:+ l then l.take (l.length - m.length) else l := by
  have hp : m.isPrefixOf l = false := by
    cases hb : m.isPrefixOf l
    · rfl
    · exact absurd (List.isPrefixOf_iff_prefix.mp hb) h
  by_cases hs : m <:+ l
  · have hs2 : m.isSuffixOf l = true := List.isSuffixOf_iff_suffix.mpr hs
    simp [dropMark, hp, hs2, hs]
  · have hs2 : m.isSuffixOf l = false := by
      cases hb : m.isSuffixOf l
      · rfl
      · exact absurd (List.isSuffixOf_iff_suffix.mp hb) hs
    simp [dropMark, hp, hs2, hs]

/-- `dropMark` is the identity when the marker is neither prefix nor
suffix. -/
theorem dropMark_noop (m l : List Char) (h1 : ¬ m <+: l) (h2 : ¬ m <:+ l) :
    dropMark m l = l := by
  rw [dropMark_nopre m l h1, if_neg h2]

/-- A proper prefix of the plain fence consists of fewer than three
backticks; gluing the fence after it and dropping a fence length gives it
back, and the fence is not among its suffixes. -/
theorem short_tick (y : List Char) (hy : y <+: Pmark) (hne : y ≠ Pmark) :
    (y ++ Pmark).drop Pmark.length = y ∧ ¬ Pmark <:+ y := by
  have hP3 : Pmark.length = 3 := by decide
  have hlen : y.length ≤ 3 := hP3 ▸ hy.length_le
  have h3 : y.length ≠ 3 := by
    intro h3
    exact hne (hy.eq_of_length (by rw [h3, hP3]))
  have hy2 := List.prefix_iff_eq_take.mp hy
  have hc : y.length = 0 ∨ y.length = 1 ∨ y.length = 2 := by omega
  rcases hc with h | h | h <;> rw [h] at hy2 <;> subst hy2 <;> exact ⟨rfl, by decide⟩

/-- If `json` is not a prefix of `x`, it is not a prefix of `x` followed by
a fence marker either (the marker starts with a backtick, not a letter). -/
theorem kjson_not_prefix (x b : List Char) (hb : b = Jmark ∨ b = Pmark)
    (h2x : ¬ Kjson <+: x) : ¬ Kjson <+: x ++ b := by
  intro h
  rcases prefix_split x Kjson b h with h | ⟨hxk, hdrop⟩
  · exact h2x h
  · have hK4 : Kjson.length = 4 := by decide
    have hlen : x.length ≤ 4 := hK4 ▸ hxk.length_le
    have h4 : x.length ≠ 4 := by
      intro h4
      apply h2x
      have hxK : x = Kjson := hxk.eq_of_length (by rw [h4, hK4])
      rw [hxK]
    have hc : x.length = 0 ∨ x.length = 1 ∨ x.length = 2 ∨ x.length = 3 := by omega
    rcases hb with rfl | rfl <;> rcases hc with h5 | h5 | h5 | h5 <;>
      rw [h5] at hdrop <;> exact absurd hdrop (by decide)

/-- The long fence marker (ending in `n`) is never a suffix of a list
ending in the plain fence (ending in a backtick). -/
theorem jmark_not_suffix_tick (y : List Char) : ¬ Jmark <:+ y ++ Pmark := by
  intro h
  have hr : Jmark.reverse <+: (y ++ Pmark).reverse := List.reverse_prefix.mpr h
  rw [List.reverse_append] at hr
  obtain ⟨t, ht⟩ := hr
  have hh := congrArg List.head? ht
  have h2 := Option.some.inj hh
  exact absurd h2 (by decide)

/-- Stripping does not touch a fence-wrapped string: both ends are
backticks. -/
theorem strip_wrap (x op cl : List Char) (hop : op = Jmark ∨ op = Pmark)
    (hcl : cl = Jmark ∨ cl = Pmark) :
    stripChars ((op ++ x) ++ cl) = (op ++ x) ++ cl := by
  apply stripChars_id
  · intro c hc
    rcases hop with rfl | rfl <;>
      · injection hc with h3
        subst h3
        decide
  · intro c hc
    rw [List.getLast?_append] at hc
    rcases hcl with rfl | rfl <;>
      · injection hc with h3
        subst h3
        decide

/-- The two marker passes of the sanitizer remove exactly the added fences,
for each of the four opening/closing combinations, provided the wrapped
text does not itself start with a fence or with `json` and does not end
with a fence. -/
theorem marks_unwrap (x op cl : List Char) (hop : op = Jmark ∨ op = Pmark)
    (hcl : cl = Jmark ∨ cl = Pmark)
    (hx1 : ¬ Pmark <+: x) (hx2 : ¬ Kjson <+: x)
    (hx3 : ¬ Pmark <:+ x) (hx4 : ¬ Jmark <:+ x) :
    dropMark Pmark (dropMark Jmark ((op ++ x) ++ cl)) = x := by
  have hJP : Jmark = Pmark ++ Kjson := by decide
  rcases hop with rfl | rfl <;> rcases hcl with rfl | rfl
  · -- ```json ... ```json
    have e1 : dropMark Jmark ((Jmark ++ x) ++ Jmark) = x := by
      rw [List.append_assoc, dropMark_pre, if_pos (List.suffix_append x Jmark)]
      have hlen : (x ++ Jmark).length - Jmark.length = x.length := by
        rw [List.length_append]; omega
      rw [hlen]
      exact List.take_left x Jmark
    rw [e1, dropMark_noop Pmark x hx1 hx3]
  · -- ```json ... ```
    have e1 : dropMark Jmark ((Jmark ++ x) ++ Pmark) = x ++ Pmark := by
      rw [List.append_assoc, dropMark_pre, if_neg (jmark_not_suffix_tick x)]
    rw [e1]
    by_cases hpp : Pmark <+: x ++ Pmark
    · rcases prefix_split x Pmark Pmark hpp with hcase | ⟨hxp, _⟩
      · exact absurd hcase hx1
      · have hxne : x ≠ Pmark := fun he => hx1 (by rw [he])
        obtain ⟨hdrop, _⟩ := short_tick x hxp hxne
        obtain ⟨u, hu⟩ := hpp
        have hux : u = x := by
          have h6 := congrArg (List.drop Pmark.length) hu
          rw [List.drop_left] at h6
          rw [h6, hdrop]
        rw [← hu, hux, dropMark_pre, if_neg hx3]
    · rw [dropMark_nopre Pmark (x ++ Pmark) hpp,
        if_pos (List.suffix_append x Pmark)]
      have hlen : (x ++ Pmark).length - Pmark.length = x.length := by
        rw [List.length_append]; omega
      rw [hlen]
      exact List.take_left x Pmark
  · -- ``` ... ```json
    have e1 : dropMark Jmark ((Pmark ++ x) ++ Jmark) = Pmark ++ x := by
      have hnp : ¬ Jmark <+: (Pmark ++ x) ++ Jmark := by
        intro h
        rw [List.append_assoc] at h
        have h2 : Pmark ++ Kjson <+: Pmark ++ (x ++ Jmark) := by rw [← hJP]; exact h
        exact kjson_not_prefix x Jmark (Or.inl rfl) hx2
          ((List.prefix_append_right_inj Pmark).mp h2)
      rw [dropMark_nopre Jmark _ hnp,
        if_pos (List.suffix_append (Pmark ++ x) Jmark)]
      have hlen : (((Pmark ++ x) ++ Jmark).length) - Jmark.length = (Pmark ++ x).length := by
        rw [List.length_append]; omega
      rw [hlen]
      exact List.take_left (Pmark ++ x) Jmark
    rw [e1, dropMark_pre, if_neg hx3]
  · -- ``` ... ```
    have e1 : dropMark Jmark ((Pmark ++ x) ++ Pmark) = (Pmark ++ x) ++ Pmark := by
      apply dropMark_noop
      · intro h
        rw [List.append_assoc] at h
        have h2 : Pmark ++ Kjson <+: Pmark ++ (x ++ Pmark) := by rw [← hJP]; exact h
        exact kjson_not_prefix x Pmark (Or.inr rfl) hx2
          ((List.prefix_append_right_inj Pmark).mp h2)
      · exact jmark_not_suffix_tick (Pmark ++ x)
    rw [e1, List.append_assoc, dropMark_pre, if_pos (List.suffix_append x Pmark)]
    have hlen : (x ++ Pmark).length - Pmark.length = x.length := by
      rw [List.length_append]; omega
    rw [hlen]
    exact List.take_left x Pmark

/-- Sanitizing a fence-wrapped string equals sanitizing the wrapped string,
under the side conditions on the trimmed text. -/
theorem cleanChars_wrap (x op cl : List Char) (hop : op = Jmark ∨ op = Pmark)
    (hcl : cl = Jmark ∨ cl = Pmark)
    (h1 : ¬ Pmark <+: stripChars x) (h2 : ¬ Kjson <+: stripChars x)
    (h3 : ¬ Pmark <:+ stripChars x) (h4 : ¬ Jmark <:+ stripChars x) :
    cleanChars ((op ++ x) ++ cl) = cleanChars x := by
  have hwP : ∀ c ∈ Pmark, wsp c = false := by decide
  have hwK : ∀ c ∈ Kjson, wsp c = false := by decide
  have hwJ : ∀ c ∈ Jmark, wsp c = false := by decide
  have hPne : Pmark ≠ [] := by decide
  have hKne : Kjson ≠ [] := by decide
  have hJne : Jmark ≠ [] := by decide
  have hx1 : ¬ Pmark <+: x := fun h => h1 (prefix_stripChars Pmark x hPne hwP h)
  have hx2 : ¬ Kjson <+: x := fun h => h2 (prefix_stripChars Kjson x hKne hwK h)
  have hx3 : ¬ Pmark <:+ x := fun h => h3 (suffix_stripChars Pmark x hPne hwP h)
  have hx4 : ¬ Jmark <:+ x := fun h => h4 (suffix_stripChars Jmark x hJne hwJ h)
  have hPJ : Pmark <+: Jmark := by decide
  have htJ : ¬ Jmark <+: stripChars x := fun h => h1 (hPJ.trans h)
  rw [cleanChars, strip_wrap x op cl hop hcl,
    marks_unwrap x op cl hop hcl hx1 hx2 hx3 hx4]
  rw [cleanChars, dropMark_noop Jmark _ htJ h4, dropMark_noop Pmark _ h1 h3,
    stripChars_idem]

/-- C4 counterexample: wrapping `json x` in plain fences makes the opening
check match the `'```json'` marker first, eating the `json` that belonged to
the text, so sanitizing the wrapped form differs from sanitizing the
unwrapped text. -/
theorem clean_wrap_cex :
    clean_json_string (("```") ++ ("json x") ++ ("```"))
      ≠ clean_json_string ("json x") := by decide

/-- C4 amended: for every string whose trimmed form does not start with a
fence marker or with `json` and does not end with a fence marker,
sanitizing the text wrapped in any recognized opening and closing fence
variant gives the same result as sanitizing the text itself. -/
theorem clean_unwrap_invariant (s op cl : String)
    (hop : op = ("```json") ∨ op = ("```"))
    (hcl : cl = ("```json") ∨ cl = ("```"))
    (h1 : ¬ Pmark <+: stripChars s.toList) (h2 : ¬ Kjson <+: stripChars s.toList)
    (h3 : ¬ Pmark <:+ stripChars s.toList) (h4 : ¬ Jmark <:+ stripChars s.toList) :
    clean_json_string (op ++ s ++ cl) = clean_json_string s := by
  rw [clean_json_string, clean_json_string]
  have hL : (op ++ s ++ cl).toList = (op.toList ++ s.toList) ++ cl.toList := by
    simp [String.toList, String.data_append]
  rw [hL, cleanChars_wrap s.toList op.toList cl.toList
    (by rcases hop with rfl | rfl
        · exact Or.inl rfl
        · exact Or.inr rfl)
    (by rcases hcl with rfl | rfl
        · exact Or.inl rfl
        · exact Or.inr rfl)
    h1 h2 h3 h4]

/-- C4 witness: the amended equation at a concrete JSON payload wrapped in
a `'```json'` opening and a `'```'` closing fence. -/
theorem clean_unwrap_invariant_witness :
    clean_json_string (("```json") ++ ("\x7b\"a\": 1\x7d") ++ ("```"))
      = clean_json_string ("\x7b\"a\": 1\x7d") :=
  clean_unwrap_invariant ("\x7b\"a\": 1\x7d") ("```json") ("```")
    (Or.inl rfl) (Or.inr rfl) (by decide) (by decide) (by decide) (by decide)
